import Mathlib

/-!
# Event registration and ticketing: a shallow embedding

This file embeds the core of the `event-reg-and-ticketing` Go service in Lean 4
and proves the specified properties about it.

Embedded code:
* `internal/model`   — the `Event` and `Registration` records;
* `internal/repository` (`database.go`) — `EventRepository.Create` and
  `RegistrationRepository.Book`, the transactional booking algorithm
  (SELECT … FOR UPDATE, duplicate check, capacity guard, increment, insert);
* `internal/service` (`service.go`) — `CreateEvent` and `Register` with their
  validation and error passthrough;
* `migrations/001_init.sql` — the schema-level CHECK constraints on `events`
  and the UNIQUE `(event_id, user_email)` constraint on `registrations`.

Modelling conventions:
* Go `int` is `Int`; Go strings are `String` (`trimSpace` and `strToLower`
  embed `strings.TrimSpace` and `strings.ToLower` by structural recursion on
  the character list; the inputs of interest are ASCII).
* The database is a `DbState`: a list of event rows, a list of registration
  rows and a counter from which fresh UUIDs are drawn (`uuid.New()` is modelled
  as an injective draw from the counter; the events PRIMARY KEY check is kept
  because event-id freshness feeds the cross-entity count invariant, while the
  registrations-id PRIMARY KEY is omitted — no property depends on it).
* Go errors are the inductive `RepoError`; `fmt.Errorf "m: %w" e` is
  `RepoError.wrap m e` and Go's `errors.Is` is `errorsIs`, which walks the
  wrap chain.
* Each transaction of `Book` is one atomic step on `DbState`; a failing branch
  returns the unchanged state (ROLLBACK).  The row lock taken by
  SELECT … FOR UPDATE serialises concurrent `Book` calls on one event, so a
  set of concurrent calls is modelled as running them in an arbitrary order
  (`runReserves` takes the order as a list).
* `time.Now()` is an ambient `now : Nat` passed to each operation.
-/

/-- `internal/model`: an event row.  `capacity` and `bookedCount` are Go `int`. -/
structure Event where
  id : String
  name : String
  description : String
  capacity : Int
  bookedCount : Int
  createdAt : Nat
  deriving Repr, DecidableEq

/-- `internal/model`: a registration row. -/
structure Registration where
  id : String
  eventId : String
  userEmail : String
  createdAt : Nat
  deriving Repr, DecidableEq

/-- `internal/model`: payload of `POST /events`. -/
structure CreateEventRequest where
  name : String
  description : String
  capacity : Int
  deriving Repr, DecidableEq

/-- Go error values reachable in the embedded code.  `wrap` is
`fmt.Errorf "msg: %w" inner`; `msgError` is `fmt.Errorf` without `%w`;
`uniqueViolation`, `checkViolation` and `pkViolation` are the PostgreSQL
constraint-violation errors raised by the schema of `migrations/001_init.sql`. -/
inductive RepoError where
  | notFound
  | eventFull
  | alreadyRegistered
  | uniqueViolation
  | checkViolation
  | pkViolation
  | msgError (msg : String)
  | wrap (msg : String) (inner : RepoError)
  deriving Repr, DecidableEq

instance : BEq RepoError := ⟨fun a b => decide (a = b)⟩

instance : LawfulBEq RepoError where
  eq_of_beq h := by simpa [BEq.beq] using h
  rfl := by simp [BEq.beq]

deriving instance DecidableEq for Except

/-- Go's `errors.Is`: the target equals the error or appears in its `%w` chain. -/
def errorsIs (e target : RepoError) : Bool :=
  e == target ||
    match e with
    | .wrap _ inner => errorsIs inner target
    | _ => false

/-- The database state: the `events` and `registrations` tables plus the
counter from which fresh UUIDs are drawn. -/
structure DbState where
  events : List Event
  registrations : List Registration
  nextId : Nat
  deriving Repr, DecidableEq

/-- `uuid.New().String()`: modelled as an injective draw from the state's
counter. -/
def genId (n : Nat) : String := "id-" ++ toString n

/-- The empty database produced by `migrations/001_init.sql`. -/
def initState : DbState := { events := [], registrations := [], nextId := 0 }

/-- `SELECT … FROM events WHERE id = $1`. -/
def eventsFind (s : DbState) (eventID : String) : Option Event :=
  s.events.find? (fun e => e.id == eventID)

/-- `SELECT COUNT(*) FROM registrations WHERE event_id = $1 AND user_email = $2`. -/
def dupCount (s : DbState) (eventID userEmail : String) : Nat :=
  (s.registrations.filter
    (fun r => r.eventId == eventID && r.userEmail == userEmail)).length

/-- The row CHECK constraints of the `events` table
(`migrations/001_init.sql` lines 12–23): name length between 1 and 200,
`capacity > 0`, `booked_count >= 0` and the `no_overbooking` constraint
`booked_count <= capacity`. -/
def eventRowChecks (e : Event) : Bool :=
  1 ≤ e.name.length && e.name.length ≤ 200 &&
    0 < e.capacity && 0 ≤ e.bookedCount && e.bookedCount ≤ e.capacity

/-- `UPDATE events SET booked_count = booked_count + 1 WHERE id = $1`,
as the per-row function it applies. -/
def incrIf (eventID : String) (e : Event) : Event :=
  if e.id == eventID then { e with bookedCount := e.bookedCount + 1 } else e

/-- `database.go` lines 350–352: the error handling of the registration
INSERT inside `Book` — any storage error, the `unique_registration`
violation included, is wrapped as `fmt.Errorf("insert registration: %w", err)`. -/
def bookInsertErrHandle (e : RepoError) : RepoError :=
  .wrap "insert registration" e

/-- `RegistrationRepository.Book` (`database.go` lines 277–360): one
transaction that locks the event row, checks for a duplicate registration,
guards capacity, increments the counter and inserts the registration; every
error branch rolls the transaction back, so the state it returns is the
input state.  The two guarded storage branches (the `no_overbooking` CHECK
on the UPDATE and the `unique_registration` UNIQUE on the INSERT) are kept
as the schema raises them. -/
def book (now : Nat) (s : DbState) (eventID userEmail : String) :
    Except RepoError Registration × DbState :=
  -- Step 1: SELECT capacity, booked_count FROM events WHERE id = $1 FOR UPDATE
  match eventsFind s eventID with
  | none => (.error .notFound, s)
  | some ev =>
    -- Step 2: duplicate-registration check
    if 0 < dupCount s eventID userEmail then
      (.error .alreadyRegistered, s)
    -- Step 3: overbooking guard
    else if ev.capacity ≤ ev.bookedCount then
      (.error .eventFull, s)
    -- Step 4: UPDATE … booked_count + 1; the no_overbooking CHECK would
    -- reject a counter exceeding capacity (unreachable behind step 3)
    else if ev.capacity < ev.bookedCount + 1 then
      (.error (.wrap "increment booked_count" .checkViolation), s)
    -- Step 5: INSERT the registration; the unique_registration constraint
    -- would reject an existing (event_id, user_email) pair (unreachable
    -- behind step 2)
    else if 0 < dupCount s eventID userEmail then
      (.error (bookInsertErrHandle .uniqueViolation), s)
    else
      let reg : Registration :=
        { id := genId s.nextId, eventId := eventID, userEmail := userEmail,
          createdAt := now }
      -- Step 6: COMMIT both writes together
      (.ok reg,
        { events := s.events.map (incrIf eventID),
          registrations := s.registrations ++ [reg],
          nextId := s.nextId + 1 })

/-- `EventRepository.Create` (`database.go` lines 178–197): builds the event
with a fresh UUID and `BookedCount: 0` and INSERTs it; the PRIMARY KEY and
the row CHECK constraints reject the insert at the schema level. -/
def repoCreate (now : Nat) (s : DbState) (req : CreateEventRequest) :
    Except RepoError Event × DbState :=
  let event : Event :=
    { id := genId s.nextId, name := req.name, description := req.description,
      capacity := req.capacity, bookedCount := 0, createdAt := now }
  if s.events.any (fun e => e.id == event.id) then
    (.error (.wrap "insert event" .pkViolation), s)
  else if !eventRowChecks event then
    (.error (.wrap "insert event" .checkViolation), s)
  else
    (.ok event,
      { s with events := s.events ++ [event], nextId := s.nextId + 1 })

/-- Go's `strings.TrimSpace`: drop whitespace from both ends (defined by
structural recursion over the character list so that concrete runs reduce). -/
def trimSpace (s : String) : String :=
  String.mk
    (((s.data.dropWhile Char.isWhitespace).reverse.dropWhile
        Char.isWhitespace).reverse)

/-- Go's `strings.ToLower`, on the ASCII range the service handles. -/
def strToLower (s : String) : String := String.mk (s.data.map Char.toLower)

/-- `service.go` line 67: `strings.TrimSpace(strings.ToLower(req.UserEmail))`. -/
def normalizeEmail (s : String) : String := trimSpace (strToLower s)

/-- Go's `strings.Split(s, "@")` on the character list. -/
def splitOnAt : List Char → List (List Char)
  | [] => [[]]
  | c :: cs =>
    match splitOnAt cs with
    | [] => [[]]
    | y :: ys => if c == '@' then [] :: y :: ys else (c :: y) :: ys

/-- `EventService.CreateEvent` (`service.go` lines 30–42): trims the name,
requires a nonempty name, a positive capacity and a capacity of at most
100,000, then delegates to the repository. -/
def createEvent (now : Nat) (s : DbState) (req : CreateEventRequest) :
    Except RepoError Event × DbState :=
  let name := trimSpace req.name
  if name == "" then
    (.error (.msgError "event name is required"), s)
  else if req.capacity ≤ 0 then
    (.error (.msgError "capacity must be a positive integer"), s)
  else if 100000 < req.capacity then
    (.error (.msgError "capacity cannot exceed 100,000"), s)
  else
    repoCreate now s { req with name := name }

/-- `service.go` lines 100–106: split on `"@"`, require exactly two parts,
a nonempty local part, and a `"."` in the domain. -/
def isValidEmail (email : String) : Bool :=
  match splitOnAt email.data with
  | [local_, domain] => 0 < local_.length && domain.any (fun c => c == '.')
  | _ => false

/-- `service.go` lines 79–87: domain errors (`ErrNotFound`, `ErrEventFull`,
`ErrAlreadyRegistered`) are surfaced directly; everything else is wrapped as
`fmt.Errorf("register for event: %w", err)`. -/
def registerErrPass (e : RepoError) : RepoError :=
  if errorsIs e .notFound || errorsIs e .eventFull ||
      errorsIs e .alreadyRegistered then e
  else .wrap "register for event" e

/-- `EventService.Register` (`service.go` lines 66–89): normalises the email,
validates it and the event id, then delegates to `book` and filters the
error. -/
def register (now : Nat) (s : DbState) (eventID reqUserEmail : String) :
    Except RepoError Registration × DbState :=
  let userEmail := normalizeEmail reqUserEmail
  if userEmail == "" then
    (.error (.msgError "user_email is required"), s)
  else if !isValidEmail userEmail then
    (.error (.msgError "user_email is not a valid email address"), s)
  else if eventID == "" then
    (.error (.msgError "event id is required"), s)
  else
    match book now s eventID userEmail with
    | (.ok reg, s') => (.ok reg, s')
    | (.error e, s') => (.error (registerErrPass e), s')

/-- The operations through which the store is mutated: the service layer's
`CreateEvent` and `Register` (the remaining operations only read). -/
inductive Step where
  | create (now : Nat) (req : CreateEventRequest)
  | reserve (now : Nat) (eventID userEmail : String)
  deriving Repr

/-- The state transition of one operation. -/
def applyStep (s : DbState) : Step → DbState
  | .create now req => (createEvent now s req).2
  | .reserve now eventID userEmail => (register now s eventID userEmail).2

/-- States reachable from the empty database through committed operations. -/
inductive Reachable : DbState → Prop
  | init : Reachable initState
  | step {s : DbState} (st : Step) : Reachable s → Reachable (applyStep s st)

/-- `runReserves` runs one `book` call per attendee key, in the order the
row lock grants access; a set of concurrent `reserve` calls on one event is
modelled by quantifying over that order. -/
def runReserves (now : Nat) (s : DbState) (eventID : String) :
    List String → List (Except RepoError Registration) × DbState
  | [] => ([], s)
  | k :: ks =>
    let (r, s') := book now s eventID k
    let (rs, s'') := runReserves now s' eventID ks
    (r :: rs, s'')

/-- Did a reserve call succeed? -/
def isOkRes (r : Except RepoError Registration) : Bool :=
  match r with
  | .ok _ => true
  | .error _ => false

/-- Did a reserve call return `ErrEventFull`? -/
def isFullRes (r : Except RepoError Registration) : Bool :=
  match r with
  | .error .eventFull => true
  | _ => false

/-- `SELECT COUNT(*) FROM registrations WHERE event_id = $1`. -/
def regCount (s : DbState) (eventID : String) : Nat :=
  (s.registrations.filter (fun r => r.eventId == eventID)).length

/-- `incrIf` touches only the `booked_count` column. -/
theorem incrIf_id (eventID : String) (e : Event) :
    (incrIf eventID e).id = e.id := by
  unfold incrIf; split <;> rfl

/-- The UPDATE of `book` commutes with the row lookup: finding the row after
the counter bump is bumping the row found before. -/
theorem find?_map_incrIf (eventID : String) (l : List Event) :
    (l.map (incrIf eventID)).find? (fun e => e.id == eventID) =
      (l.find? (fun e => e.id == eventID)).map (incrIf eventID) := by
  induction l with
  | nil => rfl
  | cons a l ih =>
    by_cases h : a.id == eventID
    · simp [List.find?, incrIf_id, h]
    · simpa [List.find?, incrIf_id, h] using ih

/-- A found event row is a member and matches the looked-up id. -/
theorem eventsFind_some {s : DbState} {eid : String} {ev : Event}
    (h : eventsFind s eid = some ev) : ev ∈ s.events ∧ ev.id = eid := by
  refine ⟨List.mem_of_find?_eq_some h, ?_⟩
  have hp := List.find?_some h
  simpa using hp

/-- The state invariant maintained by every committed operation:
distinct event ids (the PRIMARY KEY), the capacity bounds of claim C1,
referential integrity of `registrations.event_id`, and the
count-equals-counter relationship of claim C2. -/
structure DbInv (s : DbState) : Prop where
  idsDistinct : s.events.Pairwise (fun a b => a.id ≠ b.id)
  bounds : ∀ e ∈ s.events, 0 ≤ e.bookedCount ∧ e.bookedCount ≤ e.capacity
  fk : ∀ r ∈ s.registrations, ∃ e ∈ s.events, e.id = r.eventId
  sync : ∀ e ∈ s.events, (regCount s e.id : Int) = e.bookedCount

/-- With distinct ids, any member matching the looked-up id is the found row. -/
theorem inv_event_unique {s : DbState} {eid : String} {ev b : Event}
    (hInv : DbInv s) (h : eventsFind s eid = some ev) (hb : b ∈ s.events)
    (hid : b.id = eid) : b = ev := by
  obtain ⟨hmem, hevid⟩ := eventsFind_some h
  by_contra hne
  exact hInv.idsDistinct.forall (fun a b h' => (h'.symm : _)) hb hmem hne
    (hid.trans hevid.symm)

/-- The empty database satisfies the invariant. -/
theorem inv_init : DbInv initState := by
  constructor <;> simp [initState, regCount]


/-- A registration count is zero when no row references the id. -/
theorem regCount_eq_zero {s : DbState} {eid : String}
    (h : ∀ r ∈ s.registrations, r.eventId ≠ eid) : regCount s eid = 0 := by
  unfold regCount
  rw [List.length_eq_zero, List.filter_eq_nil_iff]
  intro r hr
  simpa using h r hr

/-- Appending one registration row adds one to the count of its event and
leaves every other count unchanged. -/
theorem filter_snoc_reg (regs : List Registration) (reg : Registration)
    (eid : String) :
    ((regs ++ [reg]).filter (fun r => r.eventId == eid)).length =
      (regs.filter (fun r => r.eventId == eid)).length +
        (if reg.eventId = eid then 1 else 0) := by
  by_cases h : reg.eventId = eid <;> simp [List.filter_append, h]

/-- `EventRepository.Create` preserves the invariant. -/
theorem inv_repoCreate (now : Nat) (s : DbState) (req : CreateEventRequest)
    (hInv : DbInv s) : DbInv (repoCreate now s req).2 := by
  unfold repoCreate
  dsimp only
  split
  · exact hInv
  split
  next hck => exact hInv
  next hpk hck =>
    simp only [List.any_eq_true, not_exists, not_and] at hpk
    simp only [Bool.not_eq_true', Bool.not_eq_false] at hck
    simp only [eventRowChecks, Bool.and_eq_true, decide_eq_true_eq] at hck
    obtain ⟨⟨⟨⟨-, -⟩, hcap⟩, -⟩, -⟩ := hck
    refine ⟨?_, ?_, ?_, ?_⟩
    · refine List.pairwise_append.2 ⟨hInv.idsDistinct, List.pairwise_singleton _ _, ?_⟩
      intro a ha b hb
      have hb' : b.id = genId s.nextId := by
        simp only [List.mem_singleton] at hb
        subst hb; rfl
      rw [hb']
      intro hcontra
      exact hpk a ha (by simpa using hcontra)
    · intro e he
      rcases List.mem_append.1 he with h' | h'
      · exact hInv.bounds e h'
      · simp only [List.mem_singleton] at h'
        subst h'
        exact ⟨le_refl 0, le_of_lt hcap⟩
    · intro r hr
      obtain ⟨e, he, hid⟩ := hInv.fk r hr
      exact ⟨e, List.mem_append_left _ he, hid⟩
    · intro e he
      rcases List.mem_append.1 he with h' | h'
      · exact hInv.sync e h'
      · simp only [List.mem_singleton] at h'
        subst h'
        have hz : regCount s (genId s.nextId) = 0 := by
          apply regCount_eq_zero
          intro r hr
          obtain ⟨e', he', hid⟩ := hInv.fk r hr
          rw [← hid]
          intro hcontra
          exact hpk e' he' (by simpa using hcontra)
        show (regCount s (genId s.nextId) : Int) = 0
        rw [hz]; rfl

/-- `EventService.CreateEvent` preserves the invariant. -/
theorem inv_createEvent (now : Nat) (s : DbState) (req : CreateEventRequest)
    (hInv : DbInv s) : DbInv (createEvent now s req).2 := by
  unfold createEvent
  dsimp only
  split
  · exact hInv
  split
  · exact hInv
  split
  · exact hInv
  exact inv_repoCreate now s _ hInv


/-- The registration row inserted by `book`. -/
def newReg (now : Nat) (s : DbState) (eventID userEmail : String) : Registration :=
  { id := genId s.nextId, eventId := eventID, userEmail := userEmail,
    createdAt := now }

/-- The state committed by a successful `book` transaction. -/
def bookedState (now : Nat) (s : DbState) (eventID userEmail : String) : DbState :=
  { events := s.events.map (incrIf eventID),
    registrations := s.registrations ++ [newReg now s eventID userEmail],
    nextId := s.nextId + 1 }

/-- `book` written through `newReg` and `bookedState`; proved equal to the
step-by-step transaction once and used by every later proof. -/
theorem book_eq (now : Nat) (s : DbState) (eventID userEmail : String) :
    book now s eventID userEmail =
      match eventsFind s eventID with
      | none => (.error .notFound, s)
      | some ev =>
        if 0 < dupCount s eventID userEmail then
          (.error .alreadyRegistered, s)
        else if ev.capacity ≤ ev.bookedCount then
          (.error .eventFull, s)
        else if ev.capacity < ev.bookedCount + 1 then
          (.error (.wrap "increment booked_count" .checkViolation), s)
        else
          (.ok (newReg now s eventID userEmail),
            bookedState now s eventID userEmail) := by
  unfold book newReg bookedState
  cases eventsFind s eventID with
  | none => rfl
  | some ev =>
    dsimp only
    by_cases h1 : 0 < dupCount s eventID userEmail <;>
      simp [h1, newReg]

/-- The count of rows for each event after inserting the new registration. -/
theorem regCount_bookedState (now : Nat) (s : DbState)
    (eventID userEmail x : String) :
    regCount (bookedState now s eventID userEmail) x =
      regCount s x + (if eventID = x then 1 else 0) := by
  simp only [regCount, bookedState]
  simpa [newReg] using filter_snoc_reg s.registrations (newReg now s eventID userEmail) x

/-- `RegistrationRepository.Book` preserves the invariant: the committed
transaction bumps the counter of the booked event by one and inserts exactly
one matching registration row. -/
theorem inv_book (now : Nat) (s : DbState) (eventID userEmail : String)
    (hInv : DbInv s) : DbInv (book now s eventID userEmail).2 := by
  rw [book_eq]
  cases hfind : eventsFind s eventID with
  | none => exact hInv
  | some ev =>
    dsimp only
    split
    · exact hInv
    next hdup =>
      split
      · exact hInv
      next hcap =>
        split
        · exact hInv
        obtain ⟨hmem, hevid⟩ := eventsFind_some hfind
        rw [not_lt] at hdup
        rw [not_le] at hcap
        refine ⟨?_, ?_, ?_, ?_⟩
        · show (s.events.map (incrIf eventID)).Pairwise _
          rw [List.pairwise_map]
          exact hInv.idsDistinct.imp (fun h' => by simpa [incrIf_id] using h')
        · intro e' he'
          obtain ⟨a, ha, rfl⟩ := List.mem_map.1 he'
          unfold incrIf
          split
          next hid =>
            have haev : a = ev :=
              inv_event_unique hInv hfind ha (by simpa using hid)
            subst haev
            obtain ⟨h0, _⟩ := hInv.bounds a ha
            refine ⟨?_, ?_⟩
            · show (0 : Int) ≤ a.bookedCount + 1
              omega
            · show a.bookedCount + 1 ≤ a.capacity
              omega
          · exact hInv.bounds a ha
        · intro r hr
          rcases List.mem_append.1 hr with h' | h'
          · obtain ⟨e, he, hid⟩ := hInv.fk r h'
            exact ⟨incrIf eventID e, List.mem_map_of_mem _ he,
              by rw [incrIf_id]; exact hid⟩
          · simp only [List.mem_singleton] at h'
            subst h'
            exact ⟨incrIf eventID ev, List.mem_map_of_mem _ hmem,
              by rw [incrIf_id]; exact hevid⟩
        · intro e' he'
          have he'' : e' ∈ (bookedState now s eventID userEmail).events := he'
          obtain ⟨a, ha, rfl⟩ := List.mem_map.1 he''
          have hsync := hInv.sync a ha
          show (regCount (bookedState now s eventID userEmail) _ : Int) = _
          rw [regCount_bookedState]
          unfold incrIf
          split
          next hid =>
            have haev : a = ev :=
              inv_event_unique hInv hfind ha (by simpa using hid)
            subst haev
            rw [show ({ a with bookedCount := a.bookedCount + 1 } : Event).id
                = a.id from rfl]
            rw [if_pos (eq_of_beq hid).symm]
            push_cast
            omega
          next hid =>
            rw [if_neg (fun h' => hid (by simp [h']))]
            simpa using hsync

/-- `EventService.Register` preserves the invariant. -/
theorem inv_register (now : Nat) (s : DbState) (eventID reqUserEmail : String)
    (hInv : DbInv s) : DbInv (register now s eventID reqUserEmail).2 := by
  unfold register
  dsimp only
  split
  · exact hInv
  split
  · exact hInv
  split
  · exact hInv
  split
  next reg s' heq =>
    have h := inv_book now s eventID (normalizeEmail reqUserEmail) hInv
    rw [heq] at h
    exact h
  next e s' heq =>
    have h := inv_book now s eventID (normalizeEmail reqUserEmail) hInv
    rw [heq] at h
    exact h

/-- Every state reachable through committed operations satisfies the
invariant. -/
theorem reachable_inv {s : DbState} (h : Reachable s) : DbInv s := by
  induction h with
  | init => exact inv_init
  | step st _ ih =>
    cases st with
    | create now req => exact inv_createEvent now _ req ih
    | reserve now eventID userEmail => exact inv_register now _ eventID userEmail ih


/-- A successful `book` transaction: found row, no duplicate, free capacity. -/
theorem book_success_eq {now : Nat} {s : DbState} {eventID userEmail : String}
    {ev : Event} (hfind : eventsFind s eventID = some ev)
    (hdup : dupCount s eventID userEmail = 0)
    (hcap : ev.bookedCount < ev.capacity) :
    book now s eventID userEmail =
      (.ok (newReg now s eventID userEmail),
        bookedState now s eventID userEmail) := by
  rw [book_eq now s eventID userEmail, hfind]
  have h1 : ¬ 0 < dupCount s eventID userEmail := by omega
  have h2 : ¬ ev.capacity ≤ ev.bookedCount := not_le.2 hcap
  have h3 : ¬ ev.capacity < ev.bookedCount + 1 := by omega
  simp [h1, h2, h3]

/-- After a committed booking, the event row reads back with its counter
incremented by exactly one. -/
theorem eventsFind_bookedState {s : DbState} {eventID : String} {ev : Event}
    (now : Nat) (userEmail : String)
    (hfind : eventsFind s eventID = some ev) :
    eventsFind (bookedState now s eventID userEmail) eventID =
      some { ev with bookedCount := ev.bookedCount + 1 } := by
  have hevid := (eventsFind_some hfind).2
  show (s.events.map (incrIf eventID)).find? (fun e => e.id == eventID) = _
  rw [find?_map_incrIf]
  unfold eventsFind at hfind
  rw [hfind]
  simp [incrIf, hevid]

/-- After a committed booking, each duplicate count grows by one exactly for
the booked pair. -/
theorem dupCount_bookedState (now : Nat) (s : DbState)
    (eventID userEmail x y : String) :
    dupCount (bookedState now s eventID userEmail) x y =
      dupCount s x y + (if eventID = x ∧ userEmail = y then 1 else 0) := by
  simp only [dupCount, bookedState, newReg, List.filter_append,
    List.length_append]
  by_cases h1 : eventID = x <;> by_cases h2 : userEmail = y <;>
    simp [h1, h2]

/-- A pair count never exceeds the event's registration count. -/
theorem dupCount_le_regCount (s : DbState) (eventID userEmail : String) :
    dupCount s eventID userEmail ≤ regCount s eventID := by
  unfold dupCount regCount
  rw [← List.countP_eq_length_filter, ← List.countP_eq_length_filter]
  apply List.countP_mono_left
  intro r _ h
  exact (Bool.and_eq_true _ _ ▸ h).1

/-- Inversion of a successful `book`: the preconditions held and the call
committed exactly the paired write. -/
theorem book_ok_inv {now : Nat} {s : DbState} {eventID userEmail : String}
    {reg : Registration}
    (h : (book now s eventID userEmail).1 = .ok reg) :
    ∃ ev : Event, eventsFind s eventID = some ev ∧
      dupCount s eventID userEmail = 0 ∧
      ev.bookedCount < ev.capacity ∧
      reg = newReg now s eventID userEmail ∧
      (book now s eventID userEmail).2 = bookedState now s eventID userEmail := by
  rw [book_eq now s eventID userEmail] at h
  rw [book_eq now s eventID userEmail]
  cases hf : eventsFind s eventID with
  | none => rw [hf] at h; simp at h
  | some ev =>
    rw [hf] at h
    dsimp only at h ⊢
    split_ifs at h ⊢ with h1 h2 h3
    exact ⟨ev, rfl, by omega, by omega, (Except.ok.inj h).symm, rfl⟩

/-- A failed-capacity `book` call: found row, no duplicate, event full. -/
theorem book_full_eq {now : Nat} {s : DbState} {eventID userEmail : String}
    {ev : Event} (hfind : eventsFind s eventID = some ev)
    (hdup : dupCount s eventID userEmail = 0)
    (hcap : ev.capacity ≤ ev.bookedCount) :
    book now s eventID userEmail = (.error .eventFull, s) := by
  rw [book_eq now s eventID userEmail, hfind]
  have h1 : ¬ 0 < dupCount s eventID userEmail := by omega
  simp [h1, hcap]

/-- Counting a serialised run of `book` calls with pairwise-distinct, fresh
attendee keys: the number of `Ok` results is the free capacity (capped by the
number of calls) and every remaining call returns `Full`. -/
theorem runReserves_counts (now : Nat) (eventID : String) :
    ∀ (keys : List String) (s : DbState) (ev : Event),
      eventsFind s eventID = some ev →
      keys.Nodup →
      (∀ k ∈ keys, dupCount s eventID k = 0) →
      ((runReserves now s eventID keys).1.countP isOkRes =
          min keys.length (ev.capacity - ev.bookedCount).toNat ∧
        (runReserves now s eventID keys).1.countP isFullRes =
          keys.length - (ev.capacity - ev.bookedCount).toNat)
  | [], s, ev, hfind, hnd, hdup => by simp [runReserves]
  | k :: ks, s, ev, hfind, hnd, hdup => by
    have hdk : dupCount s eventID k = 0 := hdup k (List.mem_cons_self _ _)
    by_cases hfull : ev.capacity ≤ ev.bookedCount
    · have hb : book now s eventID k = (.error .eventFull, s) :=
        book_full_eq hfind hdk hfull
      have ih := runReserves_counts now eventID ks s ev hfind
        (List.Nodup.of_cons hnd)
        (fun k' hk' => hdup k' (List.mem_cons_of_mem _ hk'))
      have hm : (ev.capacity - ev.bookedCount).toNat = 0 := by omega
      rw [hm] at ih
      have hok : isOkRes (Except.error (ε := RepoError) (α := Registration)
        .eventFull) = false := rfl
      have hfl : isFullRes (Except.error (ε := RepoError) (α := Registration)
        .eventFull) = true := rfl
      simp only [runReserves, hb]
      simp only [List.countP_cons, hok, hfl, eq_self_iff_true, if_true,
        Bool.false_eq_true, if_false, hm]
      constructor
      · rw [ih.1]; simp
      · rw [ih.2]; simp only [List.length_cons]; omega
    · push_neg at hfull
      have hb := @book_success_eq now s eventID k ev hfind hdk hfull
      have hfind' := eventsFind_bookedState (s := s) now k hfind
      have hdup' : ∀ k' ∈ ks,
          dupCount (bookedState now s eventID k) eventID k' = 0 := by
        intro k' hk'
        rw [dupCount_bookedState]
        have h0 : dupCount s eventID k' = 0 :=
          hdup k' (List.mem_cons_of_mem _ hk')
        have hne : ¬ (eventID = eventID ∧ k = k') := by
          rintro ⟨-, rfl⟩
          exact (List.nodup_cons.1 hnd).1 hk'
        rw [h0, if_neg hne]
      have ih := runReserves_counts now eventID ks
        (bookedState now s eventID k) _ hfind'
        (List.Nodup.of_cons hnd) hdup'
      have hok : isOkRes (Except.ok (newReg now s eventID k)) = true := rfl
      have hfl : isFullRes (Except.ok (newReg now s eventID k)) = false := rfl
      have hred : (({ ev with bookedCount := ev.bookedCount + 1 } : Event).capacity
          - ({ ev with bookedCount := ev.bookedCount + 1 } : Event).bookedCount).toNat
          = (ev.capacity - ev.bookedCount).toNat - 1 := by
        show (ev.capacity - (ev.bookedCount + 1)).toNat = _
        omega
      rw [hred] at ih
      simp only [runReserves, hb]
      simp only [List.countP_cons, hok, hfl, eq_self_iff_true, if_true,
        Bool.false_eq_true, if_false]
      constructor
      · rw [ih.1]
        simp only [List.length_cons]
        omega
      · rw [ih.2]
        simp only [List.length_cons]
        omega

/-- For validated input, `Register` is `book` on the normalised email with
the service's error passthrough. -/
theorem register_eq_of_valid (now : Nat) (s : DbState) (eventID email : String)
    (hne : normalizeEmail email ≠ "")
    (hvalid : isValidEmail (normalizeEmail email) = true)
    (hid : eventID ≠ "") :
    register now s eventID email =
      ((book now s eventID (normalizeEmail email)).1.mapError registerErrPass,
        (book now s eventID (normalizeEmail email)).2) := by
  unfold register
  rw [if_neg (by simp [hne]), if_neg (by simp [hvalid]), if_neg (by simp [hid])]
  cases hb : book now s eventID (normalizeEmail email) with
  | mk r s' => cases r <;> rfl

/-- Inversion of a successful `Register`: every validation passed and the
underlying `book` call succeeded with the normalised email. -/
theorem register_ok_inv {now : Nat} {s : DbState} {eventID email : String}
    {reg : Registration}
    (h : (register now s eventID email).1 = .ok reg) :
    normalizeEmail email ≠ "" ∧ isValidEmail (normalizeEmail email) = true ∧
      eventID ≠ "" ∧
      (book now s eventID (normalizeEmail email)).1 = .ok reg ∧
      (register now s eventID email).2 =
        (book now s eventID (normalizeEmail email)).2 := by
  have h1 : normalizeEmail email ≠ "" := by
    intro hx
    unfold register at h
    rw [if_pos (by simp [hx])] at h
    simp at h
  have h2 : isValidEmail (normalizeEmail email) = true := by
    by_contra hx
    unfold register at h
    rw [if_neg (by simp [h1]), if_pos (by simpa using hx)] at h
    simp at h
  have h3 : eventID ≠ "" := by
    intro hx
    unfold register at h
    rw [if_neg (by simp [h1]), if_neg (by simp [h2]), if_pos (by simp [hx])] at h
    simp at h
  have hr := register_eq_of_valid now s eventID email h1 h2 h3
  rw [hr] at h
  refine ⟨h1, h2, h3, ?_, by rw [hr]⟩
  cases hb : (book now s eventID (normalizeEmail email)).1 with
  | ok r =>
    rw [hb] at h
    simpa [Except.mapError] using h
  | error e =>
    rw [hb] at h
    simp [Except.mapError] at h

/-- Witness fixture: the store after creating one capacity-2 event. -/
def wsCreated : DbState := applyStep initState (Step.create 0 ⟨"Gig", "d", 2⟩)

/-- Witness fixture: `wsCreated` after one successful reservation (the raw
email is normalised to `a@x.com` on the way in). -/
def wsBooked : DbState := applyStep wsCreated (Step.reserve 1 (genId 0) " A@x.com ")

/-- The two-step witness run is reachable. -/
theorem wsBooked_reachable : Reachable wsBooked :=
  Reachable.step _ (Reachable.step _ Reachable.init)

/-- The one-step witness run is reachable. -/
theorem wsCreated_reachable : Reachable wsCreated :=
  Reachable.step _ Reachable.init

/-- C1: in every reachable state of the store, every event satisfies
`0 ≤ bookedCount ≤ capacity` — `createEvent` initialises the counter to 0
(with a schema-checked positive capacity) and `book` increments it only
behind the `bookedCount < capacity` guard of its serialised transaction. -/
theorem c1_booked_count_bounds (s : DbState) (h : Reachable s) :
    ∀ e ∈ s.events, 0 ≤ e.bookedCount ∧ e.bookedCount ≤ e.capacity :=
  (reachable_inv h).bounds

/-- C1 witness: the bound, instantiated at the concrete reachable state
`wsBooked` and its single event row. -/
theorem c1_witness :
    0 ≤ (Event.mk (genId 0) "Gig" "d" 2 1 0).bookedCount ∧
      (Event.mk (genId 0) "Gig" "d" 2 1 0).bookedCount ≤
        (Event.mk (genId 0) "Gig" "d" 2 1 0).capacity :=
  c1_booked_count_bounds wsBooked wsBooked_reachable
    (Event.mk (genId 0) "Gig" "d" 2 1 0) (by decide)

/-- C2: after every committed operation, the number of registration rows of
each event equals that event's `bookedCount`: the only mutation path commits
the counter increment and the row insert in one transaction. -/
theorem c2_registration_count_matches_counter (s : DbState) (h : Reachable s) :
    ∀ e ∈ s.events, (regCount s e.id : Int) = e.bookedCount :=
  (reachable_inv h).sync

/-- C2 witness: the count identity at the concrete reachable state
`wsBooked`, whose single event has one registration and counter 1. -/
theorem c2_witness :
    (regCount wsBooked (Event.mk (genId 0) "Gig" "d" 2 1 0).id : Int) =
      (Event.mk (genId 0) "Gig" "d" 2 1 0).bookedCount :=
  c2_registration_count_matches_counter wsBooked wsBooked_reachable
    (Event.mk (genId 0) "Gig" "d" 2 1 0) (by decide)

/-- C3: a `book` call on an existing event with free capacity and an
unregistered attendee returns `Ok` with a new registration for that pair,
increments the event's counter by exactly one, appends exactly one
registration row, and commits both writes in the same transaction. -/
theorem c3_reserve_success_commits_pair (now : Nat) (s : DbState)
    (eventID userEmail : String) (ev : Event)
    (hfind : eventsFind s eventID = some ev)
    (hdup : dupCount s eventID userEmail = 0)
    (hcap : ev.bookedCount < ev.capacity) :
    (book now s eventID userEmail).1 =
        .ok (newReg now s eventID userEmail) ∧
      (newReg now s eventID userEmail).eventId = eventID ∧
      (newReg now s eventID userEmail).userEmail = userEmail ∧
      (book now s eventID userEmail).2.registrations =
        s.registrations ++ [newReg now s eventID userEmail] ∧
      eventsFind (book now s eventID userEmail).2 eventID =
        some { ev with bookedCount := ev.bookedCount + 1 } := by
  have hb := @book_success_eq now s eventID userEmail ev hfind hdup hcap
  refine ⟨by rw [hb], rfl, rfl, by rw [hb]; rfl, ?_⟩
  rw [hb]
  exact eventsFind_bookedState now userEmail hfind

/-- C3 witness: the successful booking of `a@x.com` against the fresh
capacity-2 event of `wsCreated`. -/
theorem c3_witness :
    (book 1 wsCreated (genId 0) "a@x.com").1 =
        .ok (newReg 1 wsCreated (genId 0) "a@x.com") ∧
      (newReg 1 wsCreated (genId 0) "a@x.com").eventId = genId 0 ∧
      (newReg 1 wsCreated (genId 0) "a@x.com").userEmail = "a@x.com" ∧
      (book 1 wsCreated (genId 0) "a@x.com").2.registrations =
        wsCreated.registrations ++ [newReg 1 wsCreated (genId 0) "a@x.com"] ∧
      eventsFind (book 1 wsCreated (genId 0) "a@x.com").2 (genId 0) =
        some { Event.mk (genId 0) "Gig" "d" 2 0 0 with
          bookedCount := (Event.mk (genId 0) "Gig" "d" 2 0 0).bookedCount + 1 } :=
  c3_reserve_success_commits_pair 1 wsCreated (genId 0) "a@x.com"
    (Event.mk (genId 0) "Gig" "d" 2 0 0) (by decide) (by decide) (by decide)

/-- C4: for an event with capacity `C` and `bookedCount` 0, any serialised
order of `N ≥ C` reserve calls with `N` distinct fresh attendee keys yields
exactly `C` `Ok` results and exactly `N − C` `Full` results — the row lock
of SELECT … FOR UPDATE makes every concurrent interleaving one such order,
so no interleaving produces more than `C` successes. -/
theorem c4_capacity_never_exceeded (now : Nat) (s : DbState) (eventID : String)
    (ev : Event) (keys : List String) (C : Nat)
    (hfind : eventsFind s eventID = some ev)
    (hcap : ev.capacity = (C : Int))
    (hbooked : ev.bookedCount = 0)
    (hnd : keys.Nodup)
    (hfresh : ∀ k ∈ keys, dupCount s eventID k = 0)
    (hN : C ≤ keys.length) :
    (runReserves now s eventID keys).1.countP isOkRes = C ∧
      (runReserves now s eventID keys).1.countP isFullRes = keys.length - C := by
  obtain ⟨h1, h2⟩ := runReserves_counts now eventID keys s ev hfind hnd hfresh
  rw [hcap, hbooked] at h1 h2
  constructor
  · rw [h1]; omega
  · rw [h2]; omega

/-- C4 witness: three distinct attendees against the fresh capacity-2 event
of `wsCreated` — exactly 2 `Ok` and 1 `Full`. -/
theorem c4_witness :
    (runReserves 1 wsCreated (genId 0)
        ["a@x.com", "b@x.com", "c@x.com"]).1.countP isOkRes = 2 ∧
      (runReserves 1 wsCreated (genId 0)
        ["a@x.com", "b@x.com", "c@x.com"]).1.countP isFullRes =
        (["a@x.com", "b@x.com", "c@x.com"] : List String).length - 2 :=
  c4_capacity_never_exceeded 1 wsCreated (genId 0)
    (Event.mk (genId 0) "Gig" "d" 2 0 0) ["a@x.com", "b@x.com", "c@x.com"] 2
    (by decide) (by decide) (by decide) (by decide) (by decide) (by decide)

/-- A duplicate-membership `book` call: found row, existing registration. -/
theorem book_already_eq {now : Nat} {s : DbState} {eventID userEmail : String}
    {ev : Event} (hfind : eventsFind s eventID = some ev)
    (hdup : 0 < dupCount s eventID userEmail) :
    book now s eventID userEmail = (.error .alreadyRegistered, s) := by
  rw [book_eq now s eventID userEmail, hfind]
  simp [hdup]

/-- C5 counterexample: when the `unique_registration` constraint rejects the
INSERT, `Book` wraps the storage error as `insert registration: …` and the
service wraps it again as `register for event: …`; `errors.Is` does not
recognise the result as `ErrAlreadyRegistered`, so the caller does not
observe `AlreadyRegistered`. -/
theorem c5_counterexample :
    errorsIs (registerErrPass (bookInsertErrHandle .uniqueViolation))
        .alreadyRegistered = false ∧
      registerErrPass (bookInsertErrHandle .uniqueViolation) =
        .wrap "register for event" (.wrap "insert registration" .uniqueViolation) :=
  ⟨rfl, by decide⟩

/-- C5 amended: in the serialised transaction the membership check and the
INSERT see the same registration table, so the unique-violation branch of
step 5 never fires; and were the storage layer ever to reject the INSERT,
the error handling of `Book` and `Register` would surface a generically
wrapped error that `errors.Is` does not identify with `AlreadyRegistered`,
rather than `AlreadyRegistered` itself. -/
theorem c5_unique_violation_wrapped_generic (now : Nat) (s : DbState)
    (eventID userEmail : String) (e : RepoError) :
    (book now s eventID userEmail).1 ≠
        .error (bookInsertErrHandle .uniqueViolation) ∧
      (errorsIs e .alreadyRegistered = false →
        errorsIs (registerErrPass (bookInsertErrHandle e))
          .alreadyRegistered = false) := by
  constructor
  · rw [book_eq now s eventID userEmail]
    cases hf : eventsFind s eventID with
    | none => simp [bookInsertErrHandle]
    | some ev =>
      dsimp only
      split_ifs <;> simp [bookInsertErrHandle]
  · intro he
    have h1 : errorsIs (bookInsertErrHandle e) .alreadyRegistered = false := by
      simp only [bookInsertErrHandle, errorsIs, he]
      simp [beq_iff_eq]
    unfold registerErrPass
    split
    · exact h1
    · simp only [errorsIs, h1]
      simp [beq_iff_eq, bookInsertErrHandle, he]

/-- C5 witness: the amended behaviour at the unique-violation error itself,
on the empty store. -/
theorem c5_witness :
    (book 0 initState (genId 0) "a@x.com").1 ≠
        .error (bookInsertErrHandle .uniqueViolation) ∧
      errorsIs (registerErrPass (bookInsertErrHandle .uniqueViolation))
        .alreadyRegistered = false := by
  obtain ⟨h1, h2⟩ :=
    c5_unique_violation_wrapped_generic 0 initState (genId 0) "a@x.com"
      .uniqueViolation
  exact ⟨h1, h2 (by decide)⟩

/-- C6: every `NotFound`, `Full` or `AlreadyRegistered` outcome of `book`
(and indeed every error outcome) rolls the transaction back, leaving the
state unchanged, so immediately repeating the call yields the same outcome;
and a nonexistent event id yields `NotFound` with nothing created or
altered. -/
theorem c6_terminal_errors_change_nothing (now now2 : Nat) (s : DbState)
    (eventID userEmail : String) :
    (∀ e : RepoError, (book now s eventID userEmail).1 = .error e →
        (book now s eventID userEmail).2 = s ∧
          book now2 s eventID userEmail = (.error e, s)) ∧
      (eventsFind s eventID = none →
        book now s eventID userEmail = (.error .notFound, s)) := by
  constructor
  · intro e he
    rw [book_eq now s eventID userEmail] at he
    rw [book_eq now s eventID userEmail, book_eq now2 s eventID userEmail]
    cases hf : eventsFind s eventID with
    | none =>
      rw [hf] at he
      dsimp only at he ⊢
      injection he with h
      subst h
      exact ⟨rfl, rfl⟩
    | some ev =>
      rw [hf] at he
      dsimp only at he ⊢
      split_ifs at he ⊢ <;> simp_all
  · intro hf
    rw [book_eq now s eventID userEmail, hf]

/-- C6 witness: a duplicate attempt against `wsBooked` changes nothing and
repeats identically; a reserve on a nonexistent id returns `NotFound` on the
untouched empty store. -/
theorem c6_witness :
    ((book 5 wsBooked (genId 0) "a@x.com").2 = wsBooked ∧
        book 6 wsBooked (genId 0) "a@x.com" =
          (.error .alreadyRegistered, wsBooked)) ∧
      book 5 initState "nonexistent-id" "a@x.com" =
        (.error .notFound, initState) :=
  ⟨(c6_terminal_errors_change_nothing 5 6 wsBooked (genId 0) "a@x.com").1
      .alreadyRegistered (by decide),
    (c6_terminal_errors_change_nothing 5 0 initState "nonexistent-id"
      "a@x.com").2 (by decide)⟩

/-- C7: inside one `book` transaction the membership check (step 2) precedes
the capacity check (step 3): an already-registered attendee gets
`AlreadyRegistered` even when the event is full, and `Full` is returned
exactly when the event exists, the attendee is not registered, and
`bookedCount ≥ capacity`. -/
theorem c7_membership_checked_before_capacity (now : Nat) (s : DbState)
    (eventID userEmail : String) :
    (∀ ev : Event, eventsFind s eventID = some ev →
        0 < dupCount s eventID userEmail →
        (book now s eventID userEmail).1 = .error .alreadyRegistered) ∧
      ((book now s eventID userEmail).1 = .error .eventFull ↔
        ∃ ev : Event, eventsFind s eventID = some ev ∧
          dupCount s eventID userEmail = 0 ∧ ev.capacity ≤ ev.bookedCount) := by
  constructor
  · intro ev hf hdup
    rw [book_already_eq hf hdup]
  · constructor
    · intro h
      rw [book_eq now s eventID userEmail] at h
      cases hf : eventsFind s eventID with
      | none => rw [hf] at h; simp at h
      | some ev =>
        rw [hf] at h
        dsimp only at h
        by_cases h1 : 0 < dupCount s eventID userEmail
        · rw [if_pos h1] at h
          simp at h
        · rw [if_neg h1] at h
          by_cases h2 : ev.capacity ≤ ev.bookedCount
          · rw [if_pos h2] at h
            exact ⟨ev, rfl, by omega, h2⟩
          · rw [if_neg h2] at h
            by_cases h3 : ev.capacity < ev.bookedCount + 1
            · rw [if_pos h3] at h; simp at h
            · rw [if_neg h3] at h; simp at h
    · rintro ⟨ev, hf, hdup0, hfull⟩
      rw [book_full_eq hf hdup0 hfull]

/-- Witness fixture: a capacity-1 event that is both full and has `a@x.com`
registered. -/
def wsFull : DbState :=
  applyStep (applyStep initState (Step.create 0 ⟨"Solo", "d", 1⟩))
    (Step.reserve 1 (genId 0) "a@x.com")

/-- C7 witness: on the full event, the registered attendee still gets
`AlreadyRegistered`, while an unregistered one gets `Full`. -/
theorem c7_witness :
    (book 2 wsFull (genId 0) "a@x.com").1 = .error .alreadyRegistered ∧
      (book 2 wsFull (genId 0) "b@x.com").1 = .error .eventFull :=
  ⟨(c7_membership_checked_before_capacity 2 wsFull (genId 0) "a@x.com").1
      (Event.mk (genId 0) "Solo" "d" 1 1 0) (by decide) (by decide),
    (c7_membership_checked_before_capacity 2 wsFull (genId 0) "b@x.com").2.mpr
      ⟨Event.mk (genId 0) "Solo" "d" 1 1 0, by decide, by decide, by decide⟩⟩

/-- C8: two sequential `Register` calls with the same event id and email
against a fresh event with spare capacity: the first returns `Ok`, the
second `AlreadyRegistered`, the final counter is 1 and exactly one
registration row exists for the event. -/
theorem c8_second_reserve_already_registered (now now2 : Nat) (s : DbState)
    (eventID email : String) (ev : Event)
    (hfind : eventsFind s eventID = some ev)
    (hbooked : ev.bookedCount = 0)
    (hcap : 0 < ev.capacity)
    (hnoregs : regCount s eventID = 0)
    (hid : eventID ≠ "")
    (hne : normalizeEmail email ≠ "")
    (hvalid : isValidEmail (normalizeEmail email) = true) :
    (register now s eventID email).1 =
        .ok (newReg now s eventID (normalizeEmail email)) ∧
      (register now2 (register now s eventID email).2 eventID email).1 =
        .error .alreadyRegistered ∧
      eventsFind (register now2 (register now s eventID email).2 eventID
          email).2 eventID = some { ev with bookedCount := 1 } ∧
      regCount (register now2 (register now s eventID email).2 eventID
          email).2 eventID = 1 := by
  have hdup0 : dupCount s eventID (normalizeEmail email) = 0 :=
    Nat.le_zero.1 (hnoregs ▸ dupCount_le_regCount s eventID (normalizeEmail email))
  have hcap' : ev.bookedCount < ev.capacity := by omega
  have hb := @book_success_eq now s eventID (normalizeEmail email) ev hfind hdup0 hcap'
  have hr1 := register_eq_of_valid now s eventID email hne hvalid hid
  have hs1 : (register now s eventID email).2 =
      bookedState now s eventID (normalizeEmail email) := by rw [hr1, hb]
  have hres1 : (register now s eventID email).1 =
      .ok (newReg now s eventID (normalizeEmail email)) := by rw [hr1, hb]; rfl
  have hfind1 := eventsFind_bookedState (s := s) now (normalizeEmail email) hfind
  have hdup1 : 0 < dupCount (bookedState now s eventID (normalizeEmail email))
      eventID (normalizeEmail email) := by
    rw [dupCount_bookedState]
    simp
  have hr2 := register_eq_of_valid now2
    (bookedState now s eventID (normalizeEmail email)) eventID email hne hvalid hid
  refine ⟨hres1, ?_, ?_, ?_⟩
  · rw [hs1, hr2, book_already_eq hfind1 hdup1]
    rfl
  · rw [hs1, hr2, book_already_eq hfind1 hdup1]
    dsimp only
    rw [hfind1, hbooked]
    norm_num
  · rw [hs1, hr2, book_already_eq hfind1 hdup1]
    dsimp only
    rw [regCount_bookedState, hnoregs, if_pos rfl]

/-- C8 witness: the double registration of `" A@x.com "` against the fresh
capacity-2 event of `wsCreated`. -/
theorem c8_witness :
    (register 1 wsCreated (genId 0) " A@x.com ").1 =
        .ok (newReg 1 wsCreated (genId 0) (normalizeEmail " A@x.com ")) ∧
      (register 2 (register 1 wsCreated (genId 0) " A@x.com ").2 (genId 0)
          " A@x.com ").1 = .error .alreadyRegistered ∧
      eventsFind (register 2 (register 1 wsCreated (genId 0) " A@x.com ").2
          (genId 0) " A@x.com ").2 (genId 0) =
        some { Event.mk (genId 0) "Gig" "d" 2 0 0 with bookedCount := 1 } ∧
      regCount (register 2 (register 1 wsCreated (genId 0) " A@x.com ").2
          (genId 0) " A@x.com ").2 (genId 0) = 1 :=
  c8_second_reserve_already_registered 1 2 wsCreated (genId 0) " A@x.com "
    (Event.mk (genId 0) "Gig" "d" 2 0 0) (by decide) (by decide) (by decide)
    (by decide) (by decide) (by decide) (by decide)

/-- A nonempty string has at least one character. -/
theorem one_le_length_of_ne_empty {s : String} (h : s ≠ "") : 1 ≤ s.length := by
  cases s with
  | mk data =>
    cases data with
    | nil => exact absurd rfl h
    | cons c cs =>
      show 1 ≤ (c :: cs).length
      simp

/-- C9 counterexample: a request whose capacity is a positive integer within
the ceiling is still rejected when its name is empty, so a valid capacity
alone does not make `CreateEvent` return a new event. -/
theorem c9_counterexample :
    (0 : Int) < 5 ∧ (5 : Int) ≤ 100000 ∧
      (createEvent 0 initState ⟨"", "d", 5⟩).1 =
        .error (.msgError "event name is required") :=
  ⟨by decide, by decide, by decide⟩

/-- C9 amended: `CreateEvent` returns a new event with `bookedCount = 0`
when the capacity is a positive integer of at most 100,000 **and** the
trimmed name passes validation (nonempty and within the schema's
200-character bound, with a fresh generated id); a non-positive or
over-ceiling capacity is rejected with a validation error before any
storage access, leaving the store untouched. -/
theorem c9_create_event_validation (now : Nat) (s : DbState)
    (req : CreateEventRequest) :
    ((trimSpace req.name ≠ "" ∧ (trimSpace req.name).length ≤ 200 ∧
        0 < req.capacity ∧ req.capacity ≤ 100000 ∧
        (∀ e ∈ s.events, e.id ≠ genId s.nextId)) →
      ∃ ev : Event, (createEvent now s req).1 = .ok ev ∧
        ev.bookedCount = 0 ∧ ev.capacity = req.capacity ∧
        (createEvent now s req).2.events = s.events ++ [ev]) ∧
      ((req.capacity ≤ 0 ∨ 100000 < req.capacity) →
        (∃ m : String, (createEvent now s req).1 = .error (.msgError m)) ∧
          (createEvent now s req).2 = s) := by
  constructor
  · rintro ⟨hname, hlen, hpos, hceil, hfresh⟩
    have hone : 1 ≤ (trimSpace req.name).length :=
      one_le_length_of_ne_empty hname
    unfold createEvent repoCreate
    dsimp only
    split_ifs with h1 h2 h3 h4 h5
    · exact absurd (by simpa using h1) hname
    · exact absurd h2 (by omega)
    · exact absurd h3 (by omega)
    · rw [List.any_eq_true] at h4
      obtain ⟨e, he, hid⟩ := h4
      exact absurd (by simpa using hid) (hfresh e he)
    · exfalso
      rw [Bool.not_eq_true'] at h5
      simp only [eventRowChecks, Bool.and_eq_false_iff,
        decide_eq_false_iff_not, not_le, not_lt] at h5
      rcases h5 with ((((h | h) | h) | h) | h) <;> omega
    · exact ⟨_, rfl, rfl, rfl, rfl⟩
  · intro hbad
    unfold createEvent
    dsimp only
    split_ifs with h1 h2 h3
    · exact ⟨⟨_, rfl⟩, rfl⟩
    · exact ⟨⟨_, rfl⟩, rfl⟩
    · exact ⟨⟨_, rfl⟩, rfl⟩
    · cases hbad with
      | inl h => exact absurd h h2
      | inr h => exact absurd h h3

/-- C9 witness: a valid request creates a `bookedCount = 0` event; a
zero-capacity request is rejected with the store untouched. -/
theorem c9_witness :
    (∃ ev : Event, (createEvent 0 initState ⟨"Gig", "d", 5⟩).1 = .ok ev ∧
        ev.bookedCount = 0 ∧ ev.capacity = (5 : Int) ∧
        (createEvent 0 initState ⟨"Gig", "d", 5⟩).2.events =
          initState.events ++ [ev]) ∧
      ((∃ m : String, (createEvent 0 initState ⟨"Gig", "d", 0⟩).1 =
          .error (.msgError m)) ∧
        (createEvent 0 initState ⟨"Gig", "d", 0⟩).2 = initState) :=
  ⟨(c9_create_event_validation 0 initState ⟨"Gig", "d", 5⟩).1
      ⟨by decide, by decide, by decide, by decide, by decide⟩,
    (c9_create_event_validation 0 initState ⟨"Gig", "d", 0⟩).2
      (Or.inl (by decide))⟩

/-- C10: `Register` normalises the submitted email (lower-case, then trim)
before any storage access, so two submissions whose normal forms agree —
e.g. differing only in letter case or surrounding whitespace — address the
same attendee key: the stored registration carries the normalised key, and
after one success the other submission returns `AlreadyRegistered` instead
of creating a second registration. -/
theorem c10_normalised_email_dedup (now now2 : Nat) (s : DbState)
    (eventID e1 e2 : String) (reg : Registration)
    (hnorm : normalizeEmail e1 = normalizeEmail e2)
    (hok : (register now s eventID e1).1 = .ok reg) :
    reg.userEmail = normalizeEmail e1 ∧
      (register now2 (register now s eventID e1).2 eventID e2).1 =
        .error .alreadyRegistered := by
  obtain ⟨h1, h2, h3, hbok, hs⟩ := register_ok_inv hok
  obtain ⟨ev, hfind, hdup0, hlt, hreg, hs2⟩ := book_ok_inv hbok
  subst hreg
  refine ⟨rfl, ?_⟩
  rw [hs, hs2]
  have hfind1 := eventsFind_bookedState (s := s) now (normalizeEmail e1) hfind
  have hdup1 : 0 < dupCount (bookedState now s eventID (normalizeEmail e1))
      eventID (normalizeEmail e2) := by
    rw [← hnorm, dupCount_bookedState]
    simp
  have hr2 := register_eq_of_valid now2
    (bookedState now s eventID (normalizeEmail e1)) eventID e2
    (by rw [← hnorm]; exact h1) (by rw [← hnorm]; exact h2) h3
  rw [hr2, book_already_eq hfind1 hdup1]
  rfl

/-- C10 witness: `" A@x.com "` and `"a@X.COM"` normalise to the same key;
after the first registers against `wsCreated`, the second is rejected as a
duplicate. -/
theorem c10_witness :
    (newReg 1 wsCreated (genId 0) (normalizeEmail " A@x.com ")).userEmail =
        normalizeEmail " A@x.com " ∧
      (register 2 (register 1 wsCreated (genId 0) " A@x.com ").2 (genId 0)
          "a@X.COM").1 = .error .alreadyRegistered :=
  c10_normalised_email_dedup 1 2 wsCreated (genId 0) " A@x.com " "a@X.COM"
    (newReg 1 wsCreated (genId 0) (normalizeEmail " A@x.com "))
    (by decide) (by decide)
